import Mathlib

/-!
Verification of the stream-resolution orchestrator
(`src/utils/StreamResolver.ts` of the webstreamr repository).

The TypeScript module is shallowly embedded below.  External
collaborators (source plugins, the extractor registry, config toggles,
the byte formatter, the flag lookup, the error prettifier) are passed
in as an `Env` record of pure functions, exactly at the interface
boundary the module consumes them.  The asynchronous `resolve` method
performs its two scheduling phases over purely local state
(`allUrlResults`, `errorStreams`, `sourceErrorCount`), so it is
embedded as explicit state passing; the list `processed` is a ghost
trace recording, in order, every source on which `handleSource` was
invoked, and is the only field that has no counterpart in the source.

JavaScript-specific conventions kept by the embedding:
  * optional values become `Option`;
  * the truthiness tests the code performs on strings and numbers
    (`x || d`, `if (x)`) treat `""` and `0` as falsy and are embedded
    by explicit helpers (`jsOrOpt`, explicit `= 0` / `= ""` tests);
  * `error` fields hold caught `Error` objects, which are always
    truthy in JavaScript, so their truthiness test is `Option.isSome`;
  * `Array.prototype.sort` (stable since ES2019) is embedded as a
    stable insertion sort over the boolean relation `compare a b ≤ 0`;
  * `label.localeCompare` is embedded as lexicographic `String`
    comparison, standing in for the locale collation order.
-/

/-- Content types of the stremio addon SDK; the resolver only ever
branches on whether the type is `movie`. -/
inductive ContentType where
  | movie
  | series
  | tv
  | channel
deriving DecidableEq

/-- Container format tag; the resolver only tests `format !== Format.mp4`. -/
inductive Format where
  | mp4
  | hls
  | unknown
deriving DecidableEq

/-- A URL, reduced to the two components the resolver reads:
`url.protocol` and `url.href`. -/
structure Url where
  protocol : String
  href : String
deriving DecidableEq

/-- The optional `meta` record carried by a `UrlResult` (fields the
resolver reads). -/
structure Meta where
  height : Option Nat
  bytes : Option Nat
  countryCodes : Option (List String)
  sourceId : Option String
  sourceLabel : Option String
  title : Option String
deriving DecidableEq

def Meta.empty : Meta :=
  { height := none, bytes := none, countryCodes := none,
    sourceId := none, sourceLabel := none, title := none }

/-- The unit the orchestrator aggregates and ranks
(`UrlResult` of `src/types`, restricted to the fields the resolver
reads). `ttl` is read directly off the result (`urlResult.ttl`). -/
structure UrlResult where
  url : Url
  label : String
  meta : Option Meta
  isExternal : Bool
  format : Format
  requestHeaders : Option (List (String × String))
  error : Option String
  ytId : Option String
  ttl : Option Nat
deriving DecidableEq

/-- A source configuration (the fields of `Source` the resolver reads). -/
structure Source where
  id : String
  label : String
  baseUrl : String
  contentTypes : List ContentType
deriving DecidableEq

/-- A candidate URL record produced by `source.handle`. -/
structure Candidate where
  url : Url
  meta : Option Meta
deriving DecidableEq

/-- behaviorHints of a produced stream entry.  `notWebReady := false`
models the key being absent; `proxyHeaders := some h` models
`{ request: h }`. -/
structure BehaviorHints where
  bingeGroup : String
  notWebReady : Bool
  proxyHeaders : Option (List (String × String))
  videoSize : Option Nat
  filename : String
deriving DecidableEq

/-- A produced stream entry.  Exactly one of `url`, `externalUrl`,
`ytId` is set for formatted results; the synthetic fallback and
source-error entries carry only `name`, `title`, `externalUrl`. -/
structure StreamEntry where
  url : Option String
  externalUrl : Option String
  ytId : Option String
  name : String
  title : String
  behaviorHints : Option BehaviorHints
  type : Option String
  quality : Option String
  resolution : Option String
deriving DecidableEq

/-- The value `resolve` returns: `{ streams, ttl? }`. -/
structure ResolveResponse where
  streams : List StreamEntry
  ttl : Option Nat
deriving DecidableEq

/-- All collaborators consumed by one `resolve` call, specialised to
the call's fixed `ctx`, `type` and `id` arguments: the source
behaviours, the extractor registry, the config toggles, and the pure
formatting helpers. -/
structure Env where
  type : ContentType
  sourceHandle : Source → Except String (List Candidate)
  extractorHandle : Url → Meta → Except String (List UrlResult)
  showErrors : Bool
  showExternalUrls : Bool
  appName : String
  hostHref : String
  niceError : String → String → String
  bytesFormat : Nat → String
  flagFromCountryCode : String → String

/-- JavaScript `x || d` for an optional string: `undefined` and `""`
fall back to the default. -/
def jsOrOpt : Option String → String → String
  | some s, d => if s = "" then d else s
  | none, d => d

/-- JavaScript truthiness filter on an optional string value used by
spread guards such as `...(qualityLabel && { quality })`. -/
def jsTruthyOptStr : Option String → Option String
  | some s => if s = "" then none else some s
  | none => none

/-- `{...meta, sourceLabel: meta?.sourceLabel || source.label,
sourceId: meta?.sourceId || source.id}` (lines 77-80). -/
def mergeMeta (meta : Option Meta) (source : Source) : Meta :=
  let m := meta.getD Meta.empty
  { m with
    sourceLabel := some (jsOrOpt m.sourceLabel source.label),
    sourceId := some (jsOrOpt m.sourceId source.id) }

/-- `allUrlResults.filter(r => !r.error).length` (lines 107, 109, 128). -/
def countNonError (urlResults : List UrlResult) : Nat :=
  (urlResults.filter (fun r => r.error.isNone)).length

/-- The fixed priority allow-list (line 60). -/
def prioritySourceIds : List String :=
  ["embed69", "pelisplus4k", "cinehdplus", "xupalace"]

/-- Stable insertion of one element into a sorted list: `a` goes in
front of the first element `b` with `le a b`. -/
def insertSorted (le : α → α → Bool) (a : α) : List α → List α
  | [] => [a]
  | b :: l => if le a b then a :: b :: l else b :: insertSorted le a l

/-- Stable insertion sort; embeds JavaScript's stable
`Array.prototype.sort` (elements compare "before or equal" through
`le`). -/
def stableSort (le : α → α → Bool) : List α → List α
  | [] => []
  | a :: l => insertSorted le a (stableSort le l)

/-- `sources.filter(s => prioritySourceIds.includes(s.id)).sort((a, b)
=> indexOf(a.id) - indexOf(b.id))` (lines 61-63). -/
def prioritizedSources (sources : List Source) : List Source :=
  stableSort
    (fun a b =>
      decide (prioritySourceIds.indexOf a.id ≤ prioritySourceIds.indexOf b.id))
    (sources.filter (fun s => decide (s.id ∈ prioritySourceIds)))

/-- `sources.filter(s => !prioritySourceIds.includes(s.id))` (line 64). -/
def otherSources (sources : List Source) : List Source :=
  sources.filter (fun s => !decide (s.id ∈ prioritySourceIds))

/-- The per-request mutable state of one `resolve` call, plus the
ghost trace `processed` of sources passed to `handleSource`, in
invocation order. -/
structure ResolveState where
  allUrlResults : List UrlResult
  errorStreams : List StreamEntry
  sourceErrorCount : Nat
  processed : List Source
deriving DecidableEq

def initState : ResolveState :=
  { allUrlResults := [], errorStreams := [], sourceErrorCount := 0,
    processed := [] }

/-- The synthesized source-error stream entry pushed on failure of
`source.handle` when `showErrors` is enabled (lines 96-100). -/
def sourceErrorStreamFor (env : Env) (source : Source) (e : String) : StreamEntry :=
  { url := none,
    externalUrl := some source.baseUrl,
    ytId := none,
    name := env.appName,
    title := "🔗 " ++ source.label ++ "\n" ++ env.niceError source.id e,
    behaviorHints := none, type := none, quality := none, resolution := none }

/-- `handleSource` (lines 66-103): skip unsupported sources, run the
source, extract every candidate (per-candidate failures count as no
results), append the url results; on source failure bump the error
counter and, if `showErrors`, push a synthesized error stream. -/
def handleSource (env : Env) (st : ResolveState) (source : Source) : ResolveState :=
  let st := { st with processed := st.processed ++ [source] }
  if env.type ∈ source.contentTypes then
    match env.sourceHandle source with
    | .ok sourceResults =>
        let urlResults :=
          ((sourceResults.map (fun c =>
            match env.extractorHandle c.url (mergeMeta c.meta source) with
            | .ok rs => rs
            | .error _ => ([] : List UrlResult))).flatten)
        { st with allUrlResults := st.allUrlResults ++ urlResults }
    | .error e =>
        { st with
          sourceErrorCount := st.sourceErrorCount + 1,
          errorStreams := st.errorStreams ++
            (if env.showErrors then [sourceErrorStreamFor env source e] else []) }
  else st

/-- Phase 1 (lines 106-124): prioritized sources sequentially, with
the movie / non-movie early-cutoff rules. -/
def phase1 (env : Env) : List Source → ResolveState → ResolveState
  | [], st => st
  | source :: rest, st =>
    let resultsBefore := countNonError st.allUrlResults
    let st' := handleSource env st source
    let resultsAfter := countNonError st'.allUrlResults
    let resultsFromThisSource := resultsAfter - resultsBefore
    if env.type = ContentType.movie then
      if 0 < resultsFromThisSource then st' else phase1 env rest st'
    else
      if 2 ≤ resultsAfter then st' else phase1 env rest st'

/-- `minNeededForParallel` (line 129). -/
def minNeededForParallel (type : ContentType) : Nat :=
  if type = ContentType.movie then 1 else 2

/-- State after Phase 1 of a `resolve` call. -/
def phase1State (env : Env) (sources : List Source) : ResolveState :=
  phase1 env (prioritizedSources sources) initState

/-- State after both phases (lines 106-134): Phase 2 runs every
`other` source iff the Phase-1 non-error count is below
`minNeededForParallel` and `other` sources exist. -/
def resolveState (env : Env) (sources : List Source) : ResolveState :=
  let st := phase1State env sources
  let finalCountPrioritized := countNonError st.allUrlResults
  if finalCountPrioritized < minNeededForParallel env.type ∧
      0 < (otherSources sources).length then
    (otherSources sources).foldl (handleSource env) st
  else st

/-- `b.meta?.height ?? 0` rsp. `a.meta?.height ?? 0`. -/
def heightOr0 (u : UrlResult) : Nat :=
  ((u.meta.bind (fun m => m.height)).getD 0)

/-- `meta?.bytes ?? 0`. -/
def bytesOr0 (u : UrlResult) : Nat :=
  ((u.meta.bind (fun m => m.bytes)).getD 0)

/-- `a.label.localeCompare(b.label)` as a sign value, with
lexicographic comparison standing in for locale collation. -/
def strCompareInt (a b : String) : Int :=
  match compare a b with
  | Ordering.lt => -1
  | Ordering.eq => 0
  | Ordering.gt => 1

/-- The ranking comparator passed to `allUrlResults.sort` (lines
145-165), value-for-value. -/
def urlResultCompare (a b : UrlResult) : Int :=
  if a.error.isSome || b.error.isSome then
    if a.error.isSome then 1 else -1
  else if a.isExternal || b.isExternal then
    if a.isExternal then 1 else -1
  else
    let heightComparison : Int := (heightOr0 b : Int) - (heightOr0 a : Int)
    if heightComparison ≠ 0 then heightComparison
    else
      let bytesComparison : Int := (bytesOr0 b : Int) - (bytesOr0 a : Int)
      if bytesComparison ≠ 0 then bytesComparison
      else strCompareInt a.label b.label

/-- The in-place `allUrlResults.sort(comparator)` call, embedded as a
stable sort putting `a` before `b` when the comparator is ≤ 0. -/
def sortUrlResults (urlResults : List UrlResult) : List UrlResult :=
  stableSort (fun a b => decide (urlResultCompare a b ≤ 0)) urlResults

/-- `Math.min(...)` over a list; the call site guarantees the list is
nonempty (the empty case is unreachable and yields 0). -/
def minList : List Nat → Nat
  | [] => 0
  | x :: xs => xs.foldl min x

/-- `determineTtl` (lines 218-228). -/
def determineTtl (urlResults : List UrlResult) : Option Nat :=
  if urlResults.length = 0 then some 900000
  else if urlResults.any (fun u => u.ttl.isNone) then none
  else some (minList (urlResults.map (fun u => u.ttl.getD 0)))

/-- `mapHeightToQualityLabel` (lines 230-241). -/
def mapHeightToQualityLabel : Option Nat → Option String
  | none => none
  | some height =>
    if 2160 ≤ height then some "2160p"
    else if 1440 ≤ height then some "1440p"
    else if 1080 ≤ height then some "1080p"
    else if 720 ≤ height then some "720p"
    else if 576 ≤ height then some "576p"
    else if 480 ≤ height then some "480p"
    else if 360 ≤ height then some "360p"
    else some "240p"

/-- `mapQualityToResolutionLabel` (lines 243-254). -/
def mapQualityToResolutionLabel (quality : String) : String :=
  if quality = "2160p" then "4K"
  else if quality = "1440p" then "QHD"
  else if quality = "1080p" then "FHD"
  else if quality = "720p" then "HD"
  else if quality = "576p" then "SD"
  else if quality = "480p" then "SD"
  else if quality = "360p" then "SD"
  else "n/a"

/-- JavaScript `String.prototype.replace` with a single-character
pattern: only the first occurrence is replaced. -/
def replaceFirstCharList (c r : Char) : List Char → List Char
  | [] => []
  | x :: xs => if x = c then r :: xs else x :: replaceFirstCharList c r xs

def jsReplaceFirst (c r : Char) (s : String) : String :=
  (replaceFirstCharList c r s.toList).asString

/-- `buildName` (lines 262-276). -/
def buildName (env : Env) (urlResult : UrlResult) : String :=
  let name := env.appName
  let name :=
    ((urlResult.meta.bind (fun m => m.countryCodes)).getD []).foldl
      (fun n cc => n ++ " " ++ env.flagFromCountryCode cc) name
  let name :=
    match mapHeightToQualityLabel (urlResult.meta.bind (fun m => m.height)) with
    | some quality => name ++ " " ++ jsReplaceFirst 'p' 'P' quality
    | none => name
  let name := name ++ " ⏳"
  if urlResult.isExternal && env.showExternalUrls then
    name ++ " ⚠️ external"
  else name

/-- `buildTitle` (lines 279-297). -/
def buildTitle (env : Env) (urlResult : UrlResult) : String :=
  let titleLines : List String :=
    match urlResult.meta.bind (fun m => m.title) with
    | some t => if t = "" then [] else [t]
    | none => []
  let label := if urlResult.label = "" then "Stream" else urlResult.label
  let sourceLabel := jsOrOpt (urlResult.meta.bind (fun m => m.sourceLabel)) "Unknown"
  let titleLines := titleLines ++ ["🔗 " ++ label ++ " from " ++ sourceLabel]
  let titleLines := titleLines ++
    (match urlResult.meta.bind (fun m => m.bytes) with
     | some b => if b = 0 then [] else ["💾 " ++ env.bytesFormat b]
     | none => [])
  let titleLines := titleLines ++
    (match urlResult.error with
     | some e =>
        [env.niceError (jsOrOpt (urlResult.meta.bind (fun m => m.sourceId)) "") e]
     | none => [])
  String.intercalate "\n" titleLines

/-- `buildUrl` (lines 256-260) as the triple
(url, externalUrl, ytId) of the produced entry, with the JavaScript
truthiness test on `ytId`. -/
def buildUrlNoYt (urlResult : UrlResult) : Option String × Option String × Option String :=
  if !urlResult.isExternal then (some urlResult.url.href, none, none)
  else (none, some urlResult.url.href, none)

def buildUrlFields (urlResult : UrlResult) : Option String × Option String × Option String :=
  match urlResult.ytId with
  | some y => if y = "" then buildUrlNoYt urlResult else (none, none, some y)
  | none => buildUrlNoYt urlResult

/-- The search performed by `title.split('\n')[0]?.match(/🔗 ([^(]+)/)`:
scan for the first position where `🔗 ` is followed by at least one
character other than `(` and return the (greedy) capture group. -/
def matchLinkCapture : List Char → Option String
  | [] => none
  | c :: rest =>
    if c = '🔗' then
      match rest with
      | ' ' :: tail =>
        let cap := tail.takeWhile (fun ch => !(ch = '('))
        if cap.isEmpty then matchLinkCapture rest else some cap.asString
      | _ => matchLinkCapture rest
    else matchLinkCapture rest

/-- `.replace(/[^a-zA-Z0-9]/g, '')`. -/
def sanitizeAlnum (s : String) : String :=
  (s.toList.filter (fun c => c.isAlphanum)).asString

/-- The per-result formatting step of `resolve` (lines 172-205),
producing one stream entry from a url result. -/
def formatStream (env : Env) (urlResult : UrlResult) : StreamEntry :=
  let qualityLabel := mapHeightToQualityLabel (urlResult.meta.bind (fun m => m.height))
  let title := buildTitle env urlResult
  let countryCode :=
    jsOrOpt ((urlResult.meta.bind (fun m => m.countryCodes)).bind (fun l => l.head?))
      "Unknown"
  let firstLine := ((title.splitOn "\n").headD "")
  let sourceName :=
    match matchLinkCapture firstLine.toList with
    | some cap => if cap.trim = "" then "Unknown" else cap.trim
    | none => "Unknown"
  let cleanSourceName := sanitizeAlnum sourceName
  let cleanCountryCode := ((countryCode.take 2).toUpper)
  let sizeLabel :=
    match urlResult.meta.bind (fun m => m.bytes) with
    | some b => if b = 0 then "" else "[" ++ env.bytesFormat b ++ "]"
    | none => ""
  let filename :=
    jsOrOpt qualityLabel "Unknown" ++ "." ++ cleanSourceName ++ "." ++
      cleanCountryCode ++ (if sizeLabel = "" then "" else "." ++ sizeLabel) ++ ".mkv"
  let urlFields := buildUrlFields urlResult
  { url := urlFields.1,
    externalUrl := urlFields.2.1,
    ytId := urlFields.2.2,
    name := buildName env urlResult,
    title := title,
    behaviorHints := some
      { bingeGroup := "webstreamr-" ++
          (match urlResult.meta.bind (fun m => m.sourceId) with
           | some s => s
           | none => "undefined"),
        notWebReady :=
          (!(urlResult.format = Format.mp4) || !(urlResult.url.protocol = "https:")) ||
            urlResult.requestHeaders.isSome,
        proxyHeaders := urlResult.requestHeaders,
        videoSize :=
          (match urlResult.meta.bind (fun m => m.bytes) with
           | some b => if b = 0 then none else some b
           | none => none),
        filename := filename },
    type := some "hls",
    quality := jsTruthyOptStr qualityLabel,
    resolution := (jsTruthyOptStr qualityLabel).map mapQualityToResolutionLabel }

/-- The synthetic entry returned when `sources` is empty (lines 42-52). -/
def fallbackStream (env : Env) : StreamEntry :=
  { url := none,
    externalUrl := some env.hostHref,
    ytId := none,
    name := "WebStreamr",
    title := "⚠️ No se encontraron fuentes. Por favor, reconfigure el complemento.",
    behaviorHints := none, type := none, quality := none, resolution := none }

/-- `resolve` (lines 34-215): empty-sources fast path, two scheduling
phases, ranking sort, stream assembly with error streams prepended,
and the TTL policy with the `...(ttl && { ttl })` truthiness guard. -/
def resolve (env : Env) (sources : List Source) : ResolveResponse :=
  if sources.length = 0 then
    { streams := [fallbackStream env], ttl := none }
  else
    let st := resolveState env sources
    let sorted := sortUrlResults st.allUrlResults
    let streams := st.errorStreams ++
      ((sorted.filter (fun u => !u.error.isSome || env.showErrors)).map
        (formatStream env))
    let ttl := if st.sourceErrorCount = 0 then determineTtl sorted else none
    { streams := streams,
      ttl := match ttl with
             | some t => if t = 0 then none else some t
             | none => none }

/-! ## Specification-side definitions

The definitions below restate, in the spec's vocabulary, what the
claims assert about the scheduling, ranking, TTL and formatting logic;
the theorems at the end of the file relate them to the embedding
above. -/

/-- The list prefix "process each element until the predicate first
holds, including that element". -/
def takeThrough (p : α → Bool) : List α → List α
  | [] => []
  | x :: xs => if p x then [x] else x :: takeThrough p xs

/-- The url results one `handleSource` invocation appends for a given
source (empty for unsupported or failing sources). -/
def srcResults (env : Env) (source : Source) : List UrlResult :=
  if env.type ∈ source.contentTypes then
    match env.sourceHandle source with
    | .ok sourceResults =>
        ((sourceResults.map (fun c =>
          match env.extractorHandle c.url (mergeMeta c.meta source) with
          | .ok rs => rs
          | .error _ => ([] : List UrlResult))).flatten)
    | .error _ => []
  else []

/-- The synthesized error streams one `handleSource` invocation
appends for a given source. -/
def srcErrStreams (env : Env) (source : Source) : List StreamEntry :=
  if env.type ∈ source.contentTypes then
    match env.sourceHandle source with
    | .ok _ => []
    | .error e => if env.showErrors then [sourceErrorStreamFor env source e] else []
  else []

/-- The source-error counter increment one `handleSource` invocation
performs for a given source. -/
def srcErrFlag (env : Env) (source : Source) : Nat :=
  if env.type ∈ source.contentTypes then
    match env.sourceHandle source with
    | .ok _ => 0
    | .error _ => 1
  else 0

/-- Whether handling this source fails (it supports the content type
and its `handle` call throws). -/
def srcFails (env : Env) (source : Source) : Bool :=
  decide (env.type ∈ source.contentTypes) &&
    (match env.sourceHandle source with
     | .ok _ => false
     | .error _ => true)

/-- The error value a failing source's `handle` call throws (dummy
`""` for non-failing sources). -/
def srcErrMsg (env : Env) (source : Source) : String :=
  match env.sourceHandle source with
  | .ok _ => ""
  | .error e => e

/-- The number of non-error url results a source contributes. -/
def srcContrib (env : Env) (source : Source) : Nat :=
  countNonError (srcResults env source)

/-- Cumulative non-error contribution of a list of sources. -/
def cumContrib (env : Env) (l : List Source) : Nat :=
  (l.map (srcContrib env)).sum

/-- The exact list of sources the Phase-1 loop processes, given the
non-error count `acc` accumulated so far: stop after the first source
whose own contribution is positive (movie) rsp. after the first source
that brings the cumulative count to 2 (otherwise). -/
def phase1Plan (env : Env) (acc : Nat) : List Source → List Source
  | [] => []
  | source :: rest =>
    let c := srcContrib env source
    if env.type = ContentType.movie then
      if 0 < c then [source] else source :: phase1Plan env (acc + c) rest
    else
      if 2 ≤ acc + c then [source] else source :: phase1Plan env (acc + c) rest

/-- The full list of sources `resolve` passes to `handleSource`, in
order: the Phase-1 plan, then — only when the Phase-1 non-error count
is below `minNeededForParallel` and `other` sources exist — every
`other` source. -/
def allProcessed (env : Env) (sources : List Source) : List Source :=
  let plan := phase1Plan env 0 (prioritizedSources sources)
  plan ++
    (if cumContrib env plan < minNeededForParallel env.type ∧
        0 < (otherSources sources).length then
       otherSources sources
     else [])

/-- Claim C2's "never processes a further prioritized source after the
cumulative count reaches 2": along the processed trace, whenever
another source follows, the cumulative non-error count up to and
including the current source is still below 2. -/
def noOvershoot (env : Env) : Nat → List Source → Bool
  | _, [] => true
  | acc, source :: rest =>
    match rest with
    | [] => true
    | _ =>
      decide (acc + srcContrib env source < 2) &&
        noOvershoot env (acc + srcContrib env source) rest

/-- The descending height / descending bytes / ascending label key
comparison of the ranking claim (missing values read as 0). -/
def keyCompare (a b : UrlResult) : Int :=
  if heightOr0 a ≠ heightOr0 b then (heightOr0 b : Int) - (heightOr0 a : Int)
  else if bytesOr0 a ≠ bytesOr0 b then (bytesOr0 b : Int) - (bytesOr0 a : Int)
  else strCompareInt a.label b.label

/-- The amended description of the ranking comparator: any
error-flagged result compares "after" its partner — including when
both are error-flagged, where each compares after the other; the same
happens for `isExternal` among non-errors; only pairs that are neither
error nor external are compared by the height/bytes/label key. -/
def specCompareAmended (a b : UrlResult) : Int :=
  match a.error.isSome, b.error.isSome with
  | true, _ => 1
  | false, true => -1
  | false, false =>
    match a.isExternal, b.isExternal with
    | true, _ => 1
    | false, true => -1
    | false, false => keyCompare a b

/-- The amended response-TTL policy of claim C5: no TTL after any
source error; 900000 for an empty aggregate; no TTL when some result
lacks one; otherwise the minimum of the per-result TTLs — except that
a minimum of 0 is dropped by the `...(ttl && { ttl })` truthiness
guard, leaving the response TTL undefined. -/
def ttlPolicyAmended (sourceErrors : Nat) (urlResults : List UrlResult) : Option Nat :=
  if sourceErrors ≠ 0 then none
  else if urlResults.length = 0 then some 900000
  else if urlResults.any (fun u => u.ttl.isNone) then none
  else if minList (urlResults.map (fun u => u.ttl.getD 0)) = 0 then none
  else some (minList (urlResults.map (fun u => u.ttl.getD 0)))

/-- Join a list of segments with `.` separators. -/
def dotJoin : List String → String
  | [] => ""
  | [x] => x
  | x :: y :: xs => x ++ "." ++ dotJoin (y :: xs)

/-- The "source name" of claim C8: the capture recovered by running
`/🔗 ([^(]+)/` over the first line of the already-built display title,
trimmed, with `Unknown` when absent or blank. -/
def parsedSourceName (env : Env) (urlResult : UrlResult) : String :=
  match matchLinkCapture (((buildTitle env urlResult).splitOn "\n").headD "").toList with
  | some cap => if cap.trim = "" then "Unknown" else cap.trim
  | none => "Unknown"

/-- The synthetic-filename formula of claim C8:
`<qualityLabel-or-"Unknown">.<sourceNameSanitizedToAlnum>.<first-2-letters-of-first-country-code-uppercased>[.<sizeLabel>].mkv`
(the first country code falls back to `Unknown`, hence `UN`, when the
result has none; the size segment is present only for a truthy byte
count). -/
def specFilename (env : Env) (urlResult : UrlResult) : String :=
  let qualityPart :=
    jsOrOpt (mapHeightToQualityLabel (urlResult.meta.bind (fun m => m.height)))
      "Unknown"
  let namePart := sanitizeAlnum (parsedSourceName env urlResult)
  let ccPart :=
    ((jsOrOpt ((urlResult.meta.bind (fun m => m.countryCodes)).bind (fun l => l.head?))
        "Unknown").take 2).toUpper
  let sizeParts : List String :=
    match urlResult.meta.bind (fun m => m.bytes) with
    | some b => if b = 0 then [] else ["[" ++ env.bytesFormat b ++ "]"]
    | none => []
  dotJoin ([qualityPart, namePart, ccPart] ++ sizeParts) ++ ".mkv"

/-! ## Concrete instances used by witnesses and counterexamples -/

def urlA : Url := { protocol := "https:", href := "https://example.com/a" }

def metaA : Meta :=
  { height := some 1080, bytes := some 700000000, countryCodes := some ["es"],
    sourceId := some "embed69", sourceLabel := some "Embed69", title := none }

/-- A non-error 1080p result whose own TTL is 0. -/
def resultTtl0 : UrlResult :=
  { url := urlA, label := "Latino", meta := some metaA, isExternal := false,
    format := Format.mp4, requestHeaders := none, error := none, ytId := none,
    ttl := some 0 }

/-- The same result with a positive TTL. -/
def resultB : UrlResult := { resultTtl0 with ttl := some 3600000 }

def srcEmbed : Source :=
  { id := "embed69", label := "Embed69", baseUrl := "https://embed69.org",
    contentTypes := [ContentType.movie, ContentType.series] }

def srcPelis : Source :=
  { id := "pelisplus4k", label := "PelisPlus4K",
    baseUrl := "https://pelisplus.example",
    contentTypes := [ContentType.movie, ContentType.series] }

def srcCine : Source :=
  { id := "cinehdplus", label := "CineHDPlus",
    baseUrl := "https://cinehd.example",
    contentTypes := [ContentType.movie, ContentType.series] }

def srcOther : Source :=
  { id := "othersrc", label := "OtherSrc", baseUrl := "https://other.example",
    contentTypes := [ContentType.movie, ContentType.series] }

def candA : Candidate := { url := urlA, meta := none }

def baseEnv : Env :=
  { type := ContentType.movie,
    sourceHandle := fun _ => Except.ok [],
    extractorHandle := fun _ _ => Except.ok [],
    showErrors := false,
    showExternalUrls := false,
    appName := "WebStreamr",
    hostHref := "https://host.example/",
    niceError := fun sid e => sid ++ ": " ++ e,
    bytesFormat := fun n => toString n ++ " B",
    flagFromCountryCode := fun cc => cc }

/-- Movie call in which `embed69` yields exactly one non-error result
whose TTL is 0, and no source fails. -/
def envC5 : Env :=
  { baseEnv with
    sourceHandle := fun s =>
      if s.id = "embed69" then Except.ok [candA] else Except.ok [],
    extractorHandle := fun _ _ => Except.ok [resultTtl0] }

/-- Movie call in which both `embed69` and `pelisplus4k` would each
yield one non-error result. -/
def envW1 : Env :=
  { baseEnv with
    sourceHandle := fun s =>
      if s.id = "embed69" ∨ s.id = "pelisplus4k" then Except.ok [candA]
      else Except.ok [],
    extractorHandle := fun _ _ => Except.ok [resultB] }

def sourcesW1 : List Source := [srcPelis, srcEmbed, srcOther]

/-- Series call in which `embed69`, `pelisplus4k` and `cinehdplus`
would each yield one non-error result. -/
def envW2 : Env :=
  { envW1 with
    type := ContentType.series,
    sourceHandle := fun s =>
      if s.id = "embed69" ∨ s.id = "pelisplus4k" ∨ s.id = "cinehdplus" then
        Except.ok [candA]
      else Except.ok [] }

def sourcesW2 : List Source := [srcCine, srcEmbed, srcPelis]

/-- Call with errors made visible in which `embed69` fails. -/
def envW7 : Env :=
  { baseEnv with
    showErrors := true,
    sourceHandle := fun s =>
      if s.id = "embed69" then Except.error "boom" else Except.ok [] }

def sourcesW7 : List Source := [srcEmbed, srcOther]

/-- Error-flagged result with height 100. -/
def cexErrLow : UrlResult :=
  { url := urlA, label := "low",
    meta := some { Meta.empty with height := some 100 },
    isExternal := false, format := Format.mp4, requestHeaders := none,
    error := some "broken low", ytId := none, ttl := none }

/-- Error-flagged result with height 200. -/
def cexErrHigh : UrlResult :=
  { url := urlA, label := "high",
    meta := some { Meta.empty with height := some 200 },
    isExternal := false, format := Format.mp4, requestHeaders := none,
    error := some "broken high", ytId := none, ttl := none }

/-! ## Helper lemmas -/

theorem countNonError_append (l l' : List UrlResult) :
    countNonError (l ++ l') = countNonError l + countNonError l' := by
  simp [countNonError, List.filter_append]

theorem countNonError_flatten (ll : List (List UrlResult)) :
    countNonError ll.flatten = (ll.map countNonError).sum := by
  induction ll with
  | nil => rfl
  | cons h t ih => simp [countNonError_append, ih]

theorem cumContrib_eq_countNonError (env : Env) (l : List Source) :
    cumContrib env l = countNonError ((l.map (srcResults env)).flatten) := by
  induction l with
  | nil => rfl
  | cons s t ih =>
    simp only [List.map_cons, List.flatten_cons, countNonError_append, ← ih,
      cumContrib, List.sum_cons, srcContrib]

theorem cumContrib_cons (env : Env) (s : Source) (l : List Source) :
    cumContrib env (s :: l) = srcContrib env s + cumContrib env l := by
  simp [cumContrib]

theorem handleSource_eq (env : Env) (st : ResolveState) (source : Source) :
    handleSource env st source =
      { allUrlResults := st.allUrlResults ++ srcResults env source,
        errorStreams := st.errorStreams ++ srcErrStreams env source,
        sourceErrorCount := st.sourceErrorCount + srcErrFlag env source,
        processed := st.processed ++ [source] } := by
  simp only [handleSource, srcResults, srcErrStreams, srcErrFlag]
  by_cases h : env.type ∈ source.contentTypes
  · simp only [if_pos h]
    cases henv : env.sourceHandle source with
    | ok cands => simp [henv]
    | error e => simp [henv]
  · simp [if_neg h]

theorem foldl_handleSource_eq (env : Env) (ss : List Source) :
    ∀ st : ResolveState,
      ss.foldl (handleSource env) st =
        { allUrlResults := st.allUrlResults ++ (ss.map (srcResults env)).flatten,
          errorStreams := st.errorStreams ++ (ss.map (srcErrStreams env)).flatten,
          sourceErrorCount := st.sourceErrorCount + (ss.map (srcErrFlag env)).sum,
          processed := st.processed ++ ss } := by
  induction ss with
  | nil => intro st; simp
  | cons s rest ih =>
    intro st
    rw [List.foldl_cons, ih, handleSource_eq]
    simp [List.append_assoc, Nat.add_assoc]

theorem phase1_eq (env : Env) (ps : List Source) :
    ∀ st : ResolveState,
      phase1 env ps st =
        (phase1Plan env (countNonError st.allUrlResults) ps).foldl
          (handleSource env) st := by
  induction ps with
  | nil => intro st; rfl
  | cons source rest ih =>
    intro st
    have hafter :
        countNonError (handleSource env st source).allUrlResults =
          countNonError st.allUrlResults + srcContrib env source := by
      rw [handleSource_eq]
      simp [countNonError_append, srcContrib]
    simp only [phase1, phase1Plan]
    rw [hafter, Nat.add_sub_cancel_left]
    by_cases ht : env.type = ContentType.movie
    · simp only [if_pos ht]
      by_cases hc : 0 < srcContrib env source
      · simp [hc]
      · rw [if_neg hc, if_neg hc, List.foldl_cons, ih, hafter]
    · simp only [if_neg ht]
      by_cases h2 : 2 ≤ countNonError st.allUrlResults + srcContrib env source
      · simp [h2]
      · rw [if_neg h2, if_neg h2, List.foldl_cons, ih, hafter]

theorem insertSorted_perm (le : α → α → Bool) (a : α) :
    ∀ l : List α, List.Perm (insertSorted le a l) (a :: l) := by
  intro l
  induction l with
  | nil => simp [insertSorted]
  | cons b t ih =>
    simp only [insertSorted]
    by_cases h : le a b = true
    · simp [h]
    · rw [if_neg h]
      exact (ih.cons b).trans (List.Perm.swap a b t)

theorem stableSort_perm (le : α → α → Bool) :
    ∀ l : List α, List.Perm (stableSort le l) l := by
  intro l
  induction l with
  | nil => exact List.Perm.refl _
  | cons a t ih =>
    exact (insertSorted_perm le a (stableSort le t)).trans (ih.cons a)

theorem pairwise_insertSorted (le : α → α → Bool)
    (htrans : ∀ a b c, le a b = true → le b c = true → le a c = true)
    (htot : ∀ a b, le a b = true ∨ le b a = true) (a : α) :
    ∀ l : List α, l.Pairwise (fun x y => le x y = true) →
      (insertSorted le a l).Pairwise (fun x y => le x y = true) := by
  intro l
  induction l with
  | nil => intro _; simp [insertSorted]
  | cons b t ih =>
    intro hp
    rcases List.pairwise_cons.mp hp with ⟨hb, ht⟩
    simp only [insertSorted]
    by_cases hab : le a b = true
    · rw [if_pos hab]
      refine List.pairwise_cons.mpr ⟨?_, hp⟩
      intro x hx
      rcases List.mem_cons.mp hx with rfl | hx
      · exact hab
      · exact htrans a b x hab (hb x hx)
    · rw [if_neg hab]
      refine List.pairwise_cons.mpr ⟨?_, ih ht⟩
      intro x hx
      have hx' : x ∈ a :: t := (insertSorted_perm le a t).mem_iff.mp hx
      rcases List.mem_cons.mp hx' with rfl | hx'
      · rcases htot x b with h | h
        · exact absurd h hab
        · exact h
      · exact hb x hx'

theorem pairwise_stableSort (le : α → α → Bool)
    (htrans : ∀ a b c, le a b = true → le b c = true → le a c = true)
    (htot : ∀ a b, le a b = true ∨ le b a = true) :
    ∀ l : List α, (stableSort le l).Pairwise (fun x y => le x y = true) := by
  intro l
  induction l with
  | nil => simp [stableSort]
  | cons a t ih =>
    exact pairwise_insertSorted le htrans htot a (stableSort le t) ih

theorem phase1Plan_front (env : Env) :
    ∀ (ps : List Source) (acc : Nat), phase1Plan env acc ps <+: ps := by
  intro ps
  induction ps with
  | nil => intro acc; exact List.prefix_rfl
  | cons source rest ih =>
    intro acc
    simp only [phase1Plan]
    by_cases ht : env.type = ContentType.movie
    · rw [if_pos ht]
      by_cases hc : 0 < srcContrib env source
      · rw [if_pos hc]
        exact ⟨rest, rfl⟩
      · rw [if_neg hc]
        rcases ih (acc + srcContrib env source) with ⟨t, htail⟩
        exact ⟨t, by rw [List.cons_append, htail]⟩
    · rw [if_neg ht]
      by_cases h2 : 2 ≤ acc + srcContrib env source
      · rw [if_pos h2]
        exact ⟨rest, rfl⟩
      · rw [if_neg h2]
        rcases ih (acc + srcContrib env source) with ⟨t, htail⟩
        exact ⟨t, by rw [List.cons_append, htail]⟩

theorem phase1Plan_movie (env : Env) (ht : env.type = ContentType.movie) :
    ∀ (ps : List Source) (acc : Nat),
      phase1Plan env acc ps =
        takeThrough (fun s => decide (0 < srcContrib env s)) ps := by
  intro ps
  induction ps with
  | nil => intro acc; rfl
  | cons source rest ih =>
    intro acc
    simp only [phase1Plan, takeThrough, if_pos ht]
    by_cases hc : 0 < srcContrib env source
    · simp [hc]
    · simp [hc, ih]

theorem phase1Plan_series_reach (env : Env)
    (ht : ¬ env.type = ContentType.movie) :
    ∀ (ps : List Source) (acc : Nat),
      phase1Plan env acc ps = ps ∨
        2 ≤ acc + cumContrib env (phase1Plan env acc ps) := by
  intro ps
  induction ps with
  | nil => intro acc; exact Or.inl rfl
  | cons source rest ih =>
    intro acc
    simp only [phase1Plan, if_neg ht]
    by_cases h2 : 2 ≤ acc + srcContrib env source
    · rw [if_pos h2]
      refine Or.inr ?_
      rw [cumContrib_cons]
      simpa [cumContrib] using Nat.le_trans h2 (by omega)
    · rw [if_neg h2]
      rcases ih (acc + srcContrib env source) with heq | hge
      · exact Or.inl (by rw [heq])
      · refine Or.inr ?_
        rw [cumContrib_cons]
        omega

theorem phase1Plan_series_noOvershoot (env : Env)
    (ht : ¬ env.type = ContentType.movie) :
    ∀ (ps : List Source) (acc : Nat), acc < 2 →
      noOvershoot env acc (phase1Plan env acc ps) = true := by
  intro ps
  induction ps with
  | nil => intro acc _; rfl
  | cons source rest ih =>
    intro acc hacc
    simp only [phase1Plan, if_neg ht]
    by_cases h2 : 2 ≤ acc + srcContrib env source
    · rw [if_pos h2]
      rfl
    · rw [if_neg h2]
      have hlt : acc + srcContrib env source < 2 := Nat.lt_of_not_le h2
      have hrec := ih (acc + srcContrib env source) hlt
      cases hplan : phase1Plan env (acc + srcContrib env source) rest with
      | nil => rfl
      | cons p ps' =>
        rw [hplan] at hrec
        have hstep :
            noOvershoot env acc (source :: p :: ps') =
              (decide (acc + srcContrib env source < 2) &&
                noOvershoot env (acc + srcContrib env source) (p :: ps')) := rfl
        rw [hstep, hrec]
        simp [hlt]

theorem phase1State_eq (env : Env) (sources : List Source) :
    phase1State env sources =
      { allUrlResults :=
          ((phase1Plan env 0 (prioritizedSources sources)).map (srcResults env)).flatten,
        errorStreams :=
          ((phase1Plan env 0 (prioritizedSources sources)).map (srcErrStreams env)).flatten,
        sourceErrorCount :=
          ((phase1Plan env 0 (prioritizedSources sources)).map (srcErrFlag env)).sum,
        processed := phase1Plan env 0 (prioritizedSources sources) } := by
  rw [phase1State, phase1_eq, foldl_handleSource_eq]
  simp [initState, countNonError]

theorem resolveState_eq (env : Env) (sources : List Source) :
    resolveState env sources =
      { allUrlResults := ((allProcessed env sources).map (srcResults env)).flatten,
        errorStreams := ((allProcessed env sources).map (srcErrStreams env)).flatten,
        sourceErrorCount := ((allProcessed env sources).map (srcErrFlag env)).sum,
        processed := allProcessed env sources } := by
  simp only [resolveState, allProcessed]
  rw [phase1State_eq]
  simp only [← cumContrib_eq_countNonError]
  by_cases hc :
      cumContrib env (phase1Plan env 0 (prioritizedSources sources)) <
          minNeededForParallel env.type ∧
        0 < (otherSources sources).length
  · rw [if_pos hc, if_pos hc, foldl_handleSource_eq]
    simp
  · rw [if_neg hc, if_neg hc]
    simp

theorem foldl_min_le_init : ∀ (xs : List Nat) (a : Nat), xs.foldl min a ≤ a := by
  intro xs
  induction xs with
  | nil => intro a; exact Nat.le_refl a
  | cons x t ih =>
    intro a
    exact Nat.le_trans (ih (min a x)) (Nat.min_le_left a x)

theorem foldl_min_mem : ∀ (xs : List Nat) (a : Nat), xs.foldl min a ∈ a :: xs := by
  intro xs
  induction xs with
  | nil => intro a; simp
  | cons x t ih =>
    intro a
    rw [List.foldl_cons]
    have h := ih (min a x)
    rcases List.mem_cons.mp h with heq | hmem
    · rcases min_choice a x with hk | hk
      · rw [heq, hk]
        simp
      · rw [heq, hk]
        simp
    · exact List.mem_cons.mpr (Or.inr (List.mem_cons.mpr (Or.inr hmem)))

theorem foldl_min_le : ∀ (xs : List Nat) (a y : Nat), y ∈ a :: xs → xs.foldl min a ≤ y := by
  intro xs
  induction xs with
  | nil =>
    intro a y hy
    rcases List.mem_singleton.mp hy with rfl
    exact Nat.le_refl y
  | cons x t ih =>
    intro a y hy
    rcases List.mem_cons.mp hy with rfl | hy'
    · exact Nat.le_trans (foldl_min_le_init t (min y x)) (Nat.min_le_left y x)
    · rcases List.mem_cons.mp hy' with rfl | hy''
      · exact Nat.le_trans (foldl_min_le_init t (min a y)) (Nat.min_le_right a y)
      · exact ih (min a x) y (List.mem_cons.mpr (Or.inr hy''))

theorem minList_mem : ∀ l : List Nat, l ≠ [] → minList l ∈ l := by
  intro l hl
  cases l with
  | nil => exact absurd rfl hl
  | cons x xs => exact foldl_min_mem xs x

theorem minList_le (l : List Nat) (y : Nat) (hy : y ∈ l) : minList l ≤ y := by
  cases l with
  | nil => exact absurd hy (List.not_mem_nil y)
  | cons x xs => exact foldl_min_le xs x y hy

theorem minList_eq_of_perm {l l' : List Nat} (h : List.Perm l l') :
    minList l = minList l' := by
  cases l with
  | nil =>
    have : l' = [] := List.Perm.eq_nil h.symm
    rw [this]
  | cons x xs =>
    have hne : (x :: xs) ≠ ([] : List Nat) := by simp
    have hne' : l' ≠ [] := by
      intro hcon
      rw [hcon] at h
      exact hne (List.Perm.eq_nil h)
    have h1 : minList (x :: xs) ∈ l' := h.mem_iff.mp (minList_mem _ hne)
    have h2 : minList l' ∈ x :: xs := h.mem_iff.mpr (minList_mem _ hne')
    exact Nat.le_antisymm (minList_le _ _ h2) (minList_le _ _ h1)

theorem any_eq_of_perm (p : α → Bool) {l l' : List α} (h : List.Perm l l') :
    l.any p = l'.any p := by
  induction h with
  | nil => rfl
  | cons x _ ih => simp [ih]
  | swap x y l =>
    cases hx : p x <;> cases hy : p y <;> simp [hx, hy]
  | trans _ _ ih1 ih2 => exact ih1.trans ih2

theorem determineTtl_eq_of_perm {l l' : List UrlResult} (h : List.Perm l l') :
    determineTtl l = determineTtl l' := by
  simp only [determineTtl]
  rw [h.length_eq, any_eq_of_perm _ h,
    minList_eq_of_perm (h.map (fun u => u.ttl.getD 0))]

theorem sortUrlResults_perm (l : List UrlResult) :
    List.Perm (sortUrlResults l) l :=
  stableSort_perm _ l

theorem determineTtl_sort (l : List UrlResult) :
    determineTtl (sortUrlResults l) = determineTtl l :=
  determineTtl_eq_of_perm (sortUrlResults_perm l)

theorem flatten_map_ite (f : α → Bool) (g : α → β) :
    ∀ l : List α,
      ((l.map (fun s => if f s then [g s] else [])).flatten) = (l.filter f).map g := by
  intro l
  induction l with
  | nil => rfl
  | cons a t ih => by_cases h : f a <;> simp [List.filter_cons, h, ih]

theorem sum_map_ite (f : α → Bool) :
    ∀ l : List α,
      (l.map (fun s => if f s then 1 else 0)).sum = (l.filter f).length := by
  intro l
  induction l with
  | nil => rfl
  | cons a t ih => by_cases h : f a <;> simp [List.filter_cons, h, ih, Nat.add_comm]

theorem srcErrStreams_eq (env : Env) (source : Source)
    (h : env.showErrors = true) :
    srcErrStreams env source =
      if srcFails env source then
        [sourceErrorStreamFor env source (srcErrMsg env source)]
      else [] := by
  by_cases hm : env.type ∈ source.contentTypes
  · cases henv : env.sourceHandle source with
    | ok cands => simp [srcErrStreams, srcFails, srcErrMsg, henv, hm]
    | error e => simp [srcErrStreams, srcFails, srcErrMsg, henv, hm, h]
  · simp [srcErrStreams, srcFails, hm]

theorem srcErrFlag_eq (env : Env) (source : Source) :
    srcErrFlag env source = if srcFails env source then 1 else 0 := by
  by_cases hm : env.type ∈ source.contentTypes
  · cases henv : env.sourceHandle source with
    | ok cands => simp [srcErrFlag, srcFails, henv, hm]
    | error e => simp [srcErrFlag, srcFails, henv, hm]
  · simp [srcErrFlag, srcFails, hm]

theorem srcFails_contrib (env : Env) (source : Source)
    (h : srcFails env source = true) : srcContrib env source = 0 := by
  simp only [srcFails, Bool.and_eq_true, decide_eq_true_eq] at h
  rcases h with ⟨hm, herr⟩
  cases henv : env.sourceHandle source with
  | ok cands =>
    rw [henv] at herr
    simp at herr
  | error e => simp [srcContrib, srcResults, hm, henv, countNonError]

theorem keyCompare_code (a b : UrlResult) :
    (if ((heightOr0 b : Int) - (heightOr0 a : Int)) ≠ 0 then
       ((heightOr0 b : Int) - (heightOr0 a : Int))
     else if ((bytesOr0 b : Int) - (bytesOr0 a : Int)) ≠ 0 then
       ((bytesOr0 b : Int) - (bytesOr0 a : Int))
     else strCompareInt a.label b.label) = keyCompare a b := by
  simp only [keyCompare]
  by_cases hh : heightOr0 a = heightOr0 b
  · simp only [hh, sub_self, ne_eq, not_true_eq_false, if_false,
      not_false_eq_true, if_true]
    by_cases hbb : bytesOr0 a = bytesOr0 b
    · simp [hbb]
    · have hne : (bytesOr0 b : Int) - (bytesOr0 a : Int) ≠ 0 := by
        rw [sub_ne_zero]
        exact_mod_cast Ne.symm hbb
      simp [hne, hbb]
  · have hne : (heightOr0 b : Int) - (heightOr0 a : Int) ≠ 0 := by
      rw [sub_ne_zero]
      exact_mod_cast Ne.symm hh
    simp [hne, hh]

/-- C6: a `resolve` call with an empty sources list returns exactly one
stream entry — the synthetic entry whose title tells the user to
reconfigure the addon and whose external URL is the host URL — and no
TTL field. -/
theorem c6_empty_sources (env : Env) :
    resolve env [] =
      { streams :=
          [{ url := none,
             externalUrl := some env.hostHref,
             ytId := none,
             name := "WebStreamr",
             title := "⚠️ No se encontraron fuentes. Por favor, reconfigure el complemento.",
             behaviorHints := none, type := none, quality := none,
             resolution := none }],
        ttl := none } := rfl

/-- C4 counterexample: two error-flagged results with different
heights.  The claimed strict-weak order would put the higher one first
(comparator negative on (high, low)); the code's comparator instead
returns 1 in both directions on this pair, so within the both-error
class the order is not by descending height and the relation is not
asymmetric, hence not a strict weak order. -/
theorem c4_ranking_counterexample :
    cexErrLow.error.isSome = true ∧ cexErrHigh.error.isSome = true ∧
      heightOr0 cexErrLow < heightOr0 cexErrHigh ∧
      urlResultCompare cexErrHigh cexErrLow = 1 ∧
      urlResultCompare cexErrLow cexErrHigh = 1 := by
  refine ⟨rfl, rfl, by decide, rfl, rfl⟩

/-- C4 (amended): the ranking comparator sorts error-flagged results
after their partner — including when both are error-flagged, where
each compares after the other, so the relation is not a strict weak
order on such pairs (likewise for two external results); pairs with at
most one error rsp. external flag are ordered error-last then
external-last, and pairs that are neither are ordered by descending
`meta.height` (missing = 0), then descending `meta.bytes` (missing =
0), then ascending label comparison. -/
theorem c4_ranking_amended (a b : UrlResult) :
    urlResultCompare a b = specCompareAmended a b := by
  simp only [urlResultCompare, specCompareAmended]
  cases hae : a.error.isSome with
  | true => simp [hae]
  | false =>
    cases hbe : b.error.isSome with
    | true => simp [hae, hbe]
    | false =>
      simp only [hae, hbe, Bool.or_self, Bool.false_eq_true, if_false]
      cases hax : a.isExternal with
      | true => simp [hax]
      | false =>
        cases hbx : b.isExternal with
        | true => simp [hax, hbx]
        | false =>
          simp only [hax, hbx, Bool.or_self, Bool.false_eq_true, if_false]
          exact keyCompare_code a b

/-- C1: on a movie call, Phase 1 walks the prioritized sources in
priority-list order (the list it walks is sorted by priority index)
and the sources actually passed to `handleSource` in Phase 1 are
exactly the prioritized prefix up to and including the first source
contributing at least one non-error url result; every prioritized
source after that one is never queried. -/
theorem c1_movie_cutoff (env : Env) (sources : List Source)
    (h : env.type = ContentType.movie) :
    List.Pairwise
        (fun a b =>
          prioritySourceIds.indexOf a.id ≤ prioritySourceIds.indexOf b.id)
        (prioritizedSources sources) ∧
      (phase1State env sources).processed =
        takeThrough (fun s => decide (0 < srcContrib env s))
          (prioritizedSources sources) := by
  constructor
  · have hp := pairwise_stableSort
      (fun a b : Source =>
        decide (prioritySourceIds.indexOf a.id ≤ prioritySourceIds.indexOf b.id))
      (fun a b c hab hbc => by
        simp only [decide_eq_true_eq] at hab hbc ⊢
        exact Nat.le_trans hab hbc)
      (fun a b => by
        rcases Nat.le_total (prioritySourceIds.indexOf a.id)
            (prioritySourceIds.indexOf b.id) with h' | h'
        · exact Or.inl (decide_eq_true h')
        · exact Or.inr (decide_eq_true h'))
      (sources.filter (fun s => decide (s.id ∈ prioritySourceIds)))
    rw [prioritizedSources]
    exact hp.imp (fun hxy => of_decide_eq_true hxy)
  · have hproc : (phase1State env sources).processed =
        phase1Plan env 0 (prioritizedSources sources) := by
      rw [phase1State_eq]
    rw [hproc]
    exact phase1Plan_movie env h (prioritizedSources sources) 0

/-- C1 witness: concrete movie call in which both `embed69` and
`pelisplus4k` would deliver a result; Phase 1 stops after `embed69`. -/
theorem c1_movie_cutoff_witness :
    List.Pairwise
        (fun a b =>
          prioritySourceIds.indexOf a.id ≤ prioritySourceIds.indexOf b.id)
        (prioritizedSources sourcesW1) ∧
      (phase1State envW1 sourcesW1).processed =
        takeThrough (fun s => decide (0 < srcContrib envW1 s))
          (prioritizedSources sourcesW1) :=
  c1_movie_cutoff envW1 sourcesW1 rfl

/-- C2: on a non-movie (series) call, the Phase-1 trace is a leading
part of the prioritized list; it either exhausts that list or stops
with cumulative non-error count at least 2; whenever a further
prioritized source was processed the cumulative count so far was still
below 2 (`noOvershoot`); and the aggregate's non-error count after
Phase 1 equals the cumulative contribution of the trace. -/
theorem c2_series_cutoff (env : Env) (sources : List Source)
    (h : env.type ≠ ContentType.movie) :
    (phase1State env sources).processed <+: prioritizedSources sources ∧
      ((phase1State env sources).processed = prioritizedSources sources ∨
        2 ≤ cumContrib env (phase1State env sources).processed) ∧
      noOvershoot env 0 (phase1State env sources).processed = true ∧
      countNonError (phase1State env sources).allUrlResults =
        cumContrib env (phase1State env sources).processed := by
  have hproc : (phase1State env sources).processed =
      phase1Plan env 0 (prioritizedSources sources) := by
    rw [phase1State_eq]
  have hall : (phase1State env sources).allUrlResults =
      ((phase1Plan env 0 (prioritizedSources sources)).map (srcResults env)).flatten := by
    rw [phase1State_eq]
  refine ⟨?_, ?_, ?_, ?_⟩
  · rw [hproc]
    exact phase1Plan_front env (prioritizedSources sources) 0
  · rw [hproc]
    simpa using phase1Plan_series_reach env h (prioritizedSources sources) 0
  · rw [hproc]
    exact phase1Plan_series_noOvershoot env h (prioritizedSources sources) 0
      (by omega)
  · rw [hproc, hall]
    exact (cumContrib_eq_countNonError env _).symm

/-- C2 witness: concrete series call with three productive prioritized
sources; Phase 1 stops after the second one, when the cumulative
non-error count first reaches 2. -/
theorem c2_series_cutoff_witness :
    (phase1State envW2 sourcesW2).processed <+: prioritizedSources sourcesW2 ∧
      ((phase1State envW2 sourcesW2).processed = prioritizedSources sourcesW2 ∨
        2 ≤ cumContrib envW2 (phase1State envW2 sourcesW2).processed) ∧
      noOvershoot envW2 0 (phase1State envW2 sourcesW2).processed = true ∧
      countNonError (phase1State envW2 sourcesW2).allUrlResults =
        cumContrib envW2 (phase1State envW2 sourcesW2).processed :=
  c2_series_cutoff envW2 sourcesW2 (by decide)

/-- C3: the full processed trace appends the `other` sources to the
Phase-1 trace exactly when the Phase-1 non-error count is below
`minNeededForParallel` (otherwise nothing is appended); moreover no
`other` source carries a prioritized id and every source processed in
Phase 1 does, so `other` sources are never invoked when the threshold
was met, and all of them are invoked when it was not. -/
theorem c3_phase2_gate (env : Env) (sources : List Source) :
    (resolveState env sources).processed =
        (phase1State env sources).processed ++
          (if countNonError (phase1State env sources).allUrlResults <
              minNeededForParallel env.type
           then otherSources sources else []) ∧
      ((otherSources sources).all
          (fun s => !decide (s.id ∈ prioritySourceIds))) = true ∧
      ((phase1State env sources).processed.all
          (fun s => decide (s.id ∈ prioritySourceIds))) = true := by
  have hstate : (resolveState env sources).processed = allProcessed env sources := by
    rw [resolveState_eq]
  have hproc : (phase1State env sources).processed =
      phase1Plan env 0 (prioritizedSources sources) := by
    rw [phase1State_eq]
  have hall : (phase1State env sources).allUrlResults =
      ((phase1Plan env 0 (prioritizedSources sources)).map (srcResults env)).flatten := by
    rw [phase1State_eq]
  refine ⟨?_, ?_, ?_⟩
  · rw [hstate, hproc, hall]
    simp only [allProcessed, ← cumContrib_eq_countNonError]
    by_cases hlen : 0 < (otherSources sources).length
    · by_cases hcnt :
          cumContrib env (phase1Plan env 0 (prioritizedSources sources)) <
            minNeededForParallel env.type
      · rw [if_pos ⟨hcnt, hlen⟩, if_pos hcnt]
      · rw [if_neg (fun hcon => hcnt hcon.1), if_neg hcnt]
    · have hothers : otherSources sources = [] := by
        cases hcase : otherSources sources with
        | nil => rfl
        | cons a t =>
          rw [hcase] at hlen
          simp at hlen
      rw [hothers]
      simp
  · rw [List.all_eq_true]
    intro s hs
    exact (List.mem_filter.mp hs).2
  · rw [List.all_eq_true]
    intro s hs
    rw [hproc] at hs
    have h1 : s ∈ prioritizedSources sources :=
      ((phase1Plan_front env (prioritizedSources sources) 0).sublist.subset) hs
    rw [prioritizedSources] at h1
    have h2 : s ∈ sources.filter (fun s => decide (s.id ∈ prioritySourceIds)) :=
      (stableSort_perm _ _).mem_iff.mp h1
    exact (List.mem_filter.mp h2).2

theorem resolve_ttl_char (env : Env) (sources : List Source)
    (hlen : ¬ sources.length = 0) :
    (resolve env sources).ttl =
      match
        (if (resolveState env sources).sourceErrorCount = 0 then
          determineTtl (resolveState env sources).allUrlResults
        else none) with
      | some t => if t = 0 then none else some t
      | none => none := by
  simp only [resolve, if_neg hlen, determineTtl_sort]

/-- C5 counterexample: a movie call in which no source errors and the
aggregate is exactly one non-error result whose own TTL is 0.  The
claim then requires the response TTL to equal the minimum, 0, but the
response carries no TTL at all (`...(ttl && { ttl })` drops the falsy
value). -/
theorem c5_ttl_counterexample :
    (resolve envC5 [srcEmbed]).ttl = none ∧
      (resolveState envC5 [srcEmbed]).sourceErrorCount = 0 ∧
      ((resolveState envC5 [srcEmbed]).allUrlResults.map (fun u => u.ttl)) =
        [some 0] := by
  refine ⟨by decide, by decide, by decide⟩

/-- C5 (amended): for calls with at least one source, the response TTL
is: none after any source error; 900000 for an empty aggregate; none
when some result lacks a TTL; otherwise the minimum of the per-result
TTLs when that minimum is nonzero, and none (dropped by the response
truthiness guard) when the minimum is 0.  (The empty-sources fast path
returns no TTL and bypasses this policy.) -/
theorem c5_ttl_policy (env : Env) (sources : List Source)
    (hne : sources ≠ []) :
    (resolve env sources).ttl =
      ttlPolicyAmended (resolveState env sources).sourceErrorCount
        (resolveState env sources).allUrlResults := by
  have hlen : ¬ sources.length = 0 := fun hcon => hne (List.length_eq_zero.mp hcon)
  rw [resolve_ttl_char env sources hlen]
  simp only [ttlPolicyAmended]
  by_cases hcnt : (resolveState env sources).sourceErrorCount = 0
  · rw [if_pos hcnt, if_neg (fun hcon => hcon hcnt)]
    simp only [determineTtl]
    by_cases hlen2 : (resolveState env sources).allUrlResults.length = 0
    · rw [if_pos hlen2, if_pos hlen2]
      rfl
    · rw [if_neg hlen2, if_neg hlen2]
      by_cases hany :
          ((resolveState env sources).allUrlResults.any (fun u => u.ttl.isNone)) = true
      · simp [hany]
      · simp only [if_neg hany]
  · rw [if_neg hcnt, if_pos hcnt]

/-- C5 witness: the amended policy evaluated on the concrete zero-TTL
call. -/
theorem c5_ttl_policy_witness :
    (resolve envC5 [srcEmbed]).ttl =
      ttlPolicyAmended (resolveState envC5 [srcEmbed]).sourceErrorCount
        (resolveState envC5 [srcEmbed]).allUrlResults :=
  c5_ttl_policy envC5 [srcEmbed] (by decide)

/-- C7: with "show errors" enabled, a failing source never aborts the
call — `resolve` still assembles its response, with every synthesized
source-error stream (name = app name, title = source label plus the
prettified error, externalUrl = the source's base URL) prepended
before all formatted entries; the error streams are exactly one per
failing processed source, in processing order, and the source-error
counter equals the number of failing processed sources. -/
theorem c7_error_streams (env : Env) (sources : List Source)
    (hshow : env.showErrors = true) (hne : sources ≠ []) :
    (resolve env sources).streams =
        (resolveState env sources).errorStreams ++
          ((sortUrlResults (resolveState env sources).allUrlResults).filter
              (fun u => !u.error.isSome || env.showErrors)).map
            (formatStream env) ∧
      (resolveState env sources).errorStreams =
        ((resolveState env sources).processed.filter (srcFails env)).map
          (fun s => sourceErrorStreamFor env s (srcErrMsg env s)) ∧
      (resolveState env sources).sourceErrorCount =
        ((resolveState env sources).processed.filter (srcFails env)).length := by
  have hlen : ¬ sources.length = 0 := fun hcon => hne (List.length_eq_zero.mp hcon)
  have herrs : (resolveState env sources).errorStreams =
      ((allProcessed env sources).map (srcErrStreams env)).flatten := by
    rw [resolveState_eq]
  have hproc : (resolveState env sources).processed = allProcessed env sources := by
    rw [resolveState_eq]
  have hcnt : (resolveState env sources).sourceErrorCount =
      ((allProcessed env sources).map (srcErrFlag env)).sum := by
    rw [resolveState_eq]
  refine ⟨?_, ?_, ?_⟩
  · simp only [resolve, if_neg hlen]
  · have hfun : srcErrStreams env = fun s =>
        if srcFails env s then [sourceErrorStreamFor env s (srcErrMsg env s)]
        else [] :=
      funext (fun s => srcErrStreams_eq env s hshow)
    rw [herrs, hproc, hfun, flatten_map_ite]
  · have hfun : srcErrFlag env = fun s => if srcFails env s then 1 else 0 :=
      funext (fun s => srcErrFlag_eq env s)
    rw [hcnt, hproc, hfun, sum_map_ite]

/-- C7 witness: concrete call with errors shown in which `embed69`
fails and the remaining source is still processed. -/
theorem c7_error_streams_witness :
    (resolve envW7 sourcesW7).streams =
        (resolveState envW7 sourcesW7).errorStreams ++
          ((sortUrlResults (resolveState envW7 sourcesW7).allUrlResults).filter
              (fun u => !u.error.isSome || envW7.showErrors)).map
            (formatStream envW7) ∧
      (resolveState envW7 sourcesW7).errorStreams =
        ((resolveState envW7 sourcesW7).processed.filter (srcFails envW7)).map
          (fun s => sourceErrorStreamFor envW7 s (srcErrMsg envW7 s)) ∧
      (resolveState envW7 sourcesW7).sourceErrorCount =
        ((resolveState envW7 sourcesW7).processed.filter (srcFails envW7)).length :=
  c7_error_streams envW7 sourcesW7 rfl (by decide)

/-- C8: for every formatted stream entry the synthetic filename equals
`<qualityLabel-or-"Unknown">.<sourceNameSanitizedToAlnum>.<first-2-letters-of-first-country-code-uppercased>[.<sizeLabel>].mkv`,
where the source name is recovered by running `/🔗 ([^(]+)/` over the
first line of the already-built display title (with a missing first
country code falling back to `Unknown`, hence `UN`). -/
theorem c8_filename (env : Env) (u : UrlResult) :
    ((formatStream env u).behaviorHints.map (fun bh => bh.filename)) =
      some (specFilename env u) := by
  simp only [formatStream, Option.map_some]
  simp only [specFilename, parsedSourceName]
  cases hbytes : u.meta.bind (fun m => m.bytes) with
  | none =>
    simp [hbytes, dotJoin, String.append_assoc]
  | some b =>
    by_cases hb : b = 0
    · simp [hbytes, hb, dotJoin, String.append_assoc]
    · have hbr : ¬ ("[" ++ (env.bytesFormat b ++ "]") = "") := by
        intro hcon
        have h1 : ("[" ++ (env.bytesFormat b ++ "]")).length = 0 := by
          rw [hcon]
          rfl
        rw [String.length_append, String.length_append] at h1
        have h3 : "[".length = 1 := rfl
        have h4 : "]".length = 1 := rfl
        omega
      simp [hbytes, hb, hbr, dotJoin, String.append_assoc]

/-- C9: `resolve` is a pure function of its inputs — two calls whose
environments agree pointwise on every collaborator and toggle (the
embedding's rendering of "identical inputs and deterministic
collaborators"; the wall clock is only logged, never returned) produce
identical responses: the same ordered stream list and the same TTL. -/
theorem c9_deterministic (env1 env2 : Env) (sources : List Source)
    (ht : env1.type = env2.type)
    (hsh : ∀ s, env1.sourceHandle s = env2.sourceHandle s)
    (hex : ∀ u m, env1.extractorHandle u m = env2.extractorHandle u m)
    (hse : env1.showErrors = env2.showErrors)
    (hsx : env1.showExternalUrls = env2.showExternalUrls)
    (han : env1.appName = env2.appName)
    (hho : env1.hostHref = env2.hostHref)
    (hni : ∀ a b, env1.niceError a b = env2.niceError a b)
    (hbf : ∀ n, env1.bytesFormat n = env2.bytesFormat n)
    (hfl : ∀ c, env1.flagFromCountryCode c = env2.flagFromCountryCode c) :
    resolve env1 sources = resolve env2 sources := by
  have hshf : env1.sourceHandle = env2.sourceHandle := funext hsh
  have hexf : env1.extractorHandle = env2.extractorHandle :=
    funext (fun u => funext (hex u))
  have hnif : env1.niceError = env2.niceError :=
    funext (fun a => funext (hni a))
  have hbff : env1.bytesFormat = env2.bytesFormat := funext hbf
  have hflf : env1.flagFromCountryCode = env2.flagFromCountryCode := funext hfl
  obtain ⟨t1, f1, g1, e1, x1, a1, o1, n1, m1, k1⟩ := env1
  obtain ⟨t2, f2, g2, e2, x2, a2, o2, n2, m2, k2⟩ := env2
  have ht' : t1 = t2 := ht
  have hf' : f1 = f2 := hshf
  have hg' : g1 = g2 := hexf
  have he' : e1 = e2 := hse
  have hx' : x1 = x2 := hsx
  have ha' : a1 = a2 := han
  have ho' : o1 = o2 := hho
  have hn' : n1 = n2 := hnif
  have hm' : m1 = m2 := hbff
  have hk' : k1 = k2 := hflf
  subst ht' hf' hg' he' hx' ha' ho' hn' hm' hk'
  rfl

/-- C9 witness: the theorem applied to one concrete environment,
compared with itself. -/
theorem c9_deterministic_witness :
    resolve envC5 [srcEmbed] = resolve envC5 [srcEmbed] :=
  c9_deterministic envC5 envC5 [srcEmbed] rfl (fun _ => rfl)
    (fun _ _ => rfl) rfl rfl rfl rfl (fun _ _ => rfl) (fun _ => rfl)
    (fun _ => rfl)

/-- C10: when no source errored, the aggregate is nonempty, every url
result carries a TTL and the minimum of those TTLs is 0, the response
carries no `ttl` field: the computed TTL 0 is falsy and the spread
`...(ttl && { ttl })` drops it. -/
theorem c10_zero_ttl_dropped (env : Env) (sources : List Source)
    (hne : sources ≠ [])
    (herr : (resolveState env sources).sourceErrorCount = 0)
    (hagg : ¬ (resolveState env sources).allUrlResults.length = 0)
    (hall : ((resolveState env sources).allUrlResults.any
        (fun u => u.ttl.isNone)) = false)
    (hmin : minList ((resolveState env sources).allUrlResults.map
        (fun u => u.ttl.getD 0)) = 0) :
    (resolve env sources).ttl = none := by
  have hlen : ¬ sources.length = 0 := fun hcon => hne (List.length_eq_zero.mp hcon)
  rw [resolve_ttl_char env sources hlen, if_pos herr]
  simp only [determineTtl, if_neg hagg]
  rw [if_neg (by simp [hall])]
  simp [hmin]

/-- C10 witness: the concrete zero-TTL call has no `ttl` field. -/
theorem c10_zero_ttl_dropped_witness :
    (resolve envC5 [srcEmbed]).ttl = none :=
  c10_zero_ttl_dropped envC5 [srcEmbed] (by decide) (by decide) (by decide)
    (by decide) (by decide)
